import Mathlib

/-!
Verification of the scriptsort utility (src/.local/src/scriptsort.c).

The C program scans a directory, classifies each entry by an optional
order number extracted from its name, sorts three partitions and emits
either the file names (list mode) or the concatenated file contents
(bundle mode).  The definitions below are a shallow embedding of the
relevant C functions; machine integers are modelled as Int/Nat with
explicit wraparound where the C code can overflow or mixes signed and
unsigned operands.
-/

/-! ## Constants from scriptsort.c -/

/-- MAX_FILES from scriptsort.c line 26: capacity of each partition array. -/
def MAX_FILES : Nat := 1000

/-- INITIAL_BUFFER_SIZE from scriptsort.c line 28. -/
def INITIAL_BUFFER_SIZE : Nat := 4096

/-- C INT_MAX on the target platform (32-bit int). -/
def C_INT_MAX : Int := 2147483647

/-- C LONG_MAX on the target platform (64-bit long). -/
def C_LONG_MAX : Int := 9223372036854775807

/-- C LONG_MIN on the target platform (64-bit long). -/
def C_LONG_MIN : Int := -9223372036854775808

/-! ## The classifier: extract_order_number (scriptsort.c lines 370-383)

`extract_order_number` calls `strtol(filename + 8, &endptr, 10)`.  We model
strtol faithfully: it skips leading white space, accepts an optional sign,
then consumes the longest run of decimal digits, clamping the result to
the representable range of long.  `endptr` equals the start pointer
exactly when no digits were consumed. -/

/-- Character class tested by C isspace in the C locale. -/
def isSpaceChar (c : Char) : Bool :=
  c = ' ' ∨ c = '\t' ∨ c = '\n' ∨ c = '\x0b' ∨ c = '\x0c' ∨ c = '\r'

/-- Value of a run of decimal digit characters, most significant first. -/
def digitsToNat (ds : List Char) : Nat :=
  ds.foldl (fun acc c => 10 * acc + (c.toNat - 48)) 0

/-- strtol's initial white-space skip. -/
def strtolDrop (s : List Char) : List Char := s.dropWhile isSpaceChar

/-- The sign contributed by an optional leading `-`. -/
def strtolSign (s1 : List Char) : Int := if s1.head? = some '-' then -1 else 1

/-- The characters strtol examines for digits: the input after the
white space with an optional single sign character removed. -/
def strtolRest (s1 : List Char) : List Char :=
  if s1.head? = some '-' ∨ s1.head? = some '+' then s1.tail else s1

/-- Model of C strtol with base 10 applied to the character list `s`.
Returns the converted value and whether any digits were consumed
(`endptr != nptr`).  Out-of-range values are clamped to
[C_LONG_MIN, C_LONG_MAX] as strtol specifies. -/
def strtolModel (s : List Char) : Int × Bool :=
  if ((strtolRest (strtolDrop s)).takeWhile Char.isDigit).isEmpty then (0, false)
  else
    (max (min (strtolSign (strtolDrop s) *
          (digitsToNat ((strtolRest (strtolDrop s)).takeWhile Char.isDigit) : Int))
        C_LONG_MAX) C_LONG_MIN, true)

/-- extract_order_number from scriptsort.c lines 370-383.  The
`strncmp(filename, "ordered.", 8)` test is modelled by comparing the first
8 characters; `num < 0 || num > INT_MAX` and `endptr == filename + 8`
are exactly the C conditions. -/
def extract_order_number (filename : String) : Int :=
  if filename.toList.take 8 ≠ "ordered.".toList then -1
  else
    let r := strtolModel (filename.toList.drop 8)
    if r.2 = false ∨ r.1 < 0 ∨ r.1 > C_INT_MAX then -1
    else r.1

/-! ## Classification in main (scriptsort.c lines 110-132)

`order_num` is an int, `cutoff_count` an unsigned int.  In
`order_num >= 0` both operands are signed; in `order_num < cutoff_count`
and `order_num >= cutoff_count` the usual arithmetic conversions convert
`order_num` to unsigned int, so -1 becomes 4294967295. -/

/-- Conversion of a C int value to unsigned int (two's complement). -/
def intToU32 (n : Int) : Nat := (n % 4294967296).toNat

/-- The three partition arrays of main. -/
inductive Category where
  | low
  | high
  | unordered
deriving DecidableEq

/-- The branch structure of scriptsort.c lines 120-132:
`order_num >= 0 && order_num < cutoff_count` selects lower_files,
`order_num >= cutoff_count` selects upper_files, else unordered_files.
The second and third comparisons are unsigned. -/
def categorize (n : Int) (cutoff : Nat) : Category :=
  if 0 ≤ n ∧ intToU32 n < cutoff then .low
  else if cutoff ≤ intToU32 n then .high
  else .unordered

/-- One directory entry as stored by main (name plus order number;
the bytesize field only pre-sizes the list-mode buffer). -/
structure FileEntry where
  name : String
  order_num : Int
deriving DecidableEq

/-- The three partition arrays with their counts (arrays as lists). -/
structure ScanState where
  lower : List FileEntry
  unordered : List FileEntry
  upper : List FileEntry
deriving DecidableEq

/-- Entries skipped by the scan loop (scriptsort.c lines 101-108):
`.`, `..`, and names starting with `skip.`. -/
def isSkippedName (name : String) : Bool :=
  name = "." ∨ name = ".." ∨ name.toList.take 5 = "skip.".toList

/-- One iteration of the readdir loop (scriptsort.c lines 99-133):
skip control entries, extract the order number, and append the entry to
the partition selected by `categorize` unless that partition already
holds MAX_FILES entries (in which case the entry is dropped silently). -/
def scanStep (cutoff : Nat) (st : ScanState) (name : String) : ScanState :=
  if isSkippedName name then st
  else
    match categorize (extract_order_number name) cutoff with
    | .low =>
        if st.lower.length < MAX_FILES then
          { st with lower := st.lower ++ [⟨name, extract_order_number name⟩] }
        else st
    | .high =>
        if st.upper.length < MAX_FILES then
          { st with upper := st.upper ++ [⟨name, extract_order_number name⟩] }
        else st
    | .unordered =>
        if st.unordered.length < MAX_FILES then
          { st with unordered := st.unordered ++ [⟨name, extract_order_number name⟩] }
        else st

/-- The whole readdir loop starting from an arbitrary state. -/
def scanDirFrom (cutoff : Nat) (st : ScanState) (names : List String) : ScanState :=
  names.foldl (scanStep cutoff) st

/-- The whole readdir loop as executed by main (empty initial arrays). -/
def scanDir (cutoff : Nat) (names : List String) : ScanState :=
  scanDirFrom cutoff ⟨[], [], []⟩ names

/-! ## Comparators (scriptsort.c lines 388-396 and 407-417)

Both comparators return `fa->order_num - fb->order_num` when the order
numbers differ.  That subtraction is performed in C int arithmetic and
can overflow; we model the usual wraparound behaviour explicitly. -/

/-- Wraparound of a mathematical integer into the range of a 32-bit
two's-complement int, the typical behaviour of overflowing signed
subtraction (undefined behaviour in ISO C). -/
def c_int_wrap (n : Int) : Int := (n + 2147483648) % 4294967296 - 2147483648

/-- Sign-style result of C strcmp on the two names: negative, zero or
positive according to the first differing character (byte-wise for the
ASCII names considered here). -/
def strcmpList : List Char → List Char → Int
  | [], [] => 0
  | [], _ :: _ => -1
  | _ :: _, [] => 1
  | a :: as, b :: bs =>
      if a.toNat < b.toNat then -1
      else if b.toNat < a.toNat then 1
      else strcmpList as bs

/-- compare_ordered_files from scriptsort.c lines 388-396. -/
def compare_ordered_files (a b : FileEntry) : Int :=
  if a.order_num ≠ b.order_num then c_int_wrap (a.order_num - b.order_num)
  else strcmpList a.name.toList b.name.toList

/-- compare_unordered from scriptsort.c lines 407-417 (its body is
identical to compare_ordered_files). -/
def compare_unordered (a b : FileEntry) : Int :=
  if a.order_num ≠ b.order_num then c_int_wrap (a.order_num - b.order_num)
  else strcmpList a.name.toList b.name.toList

/-! ## Sorting (scriptsort.c lines 137-139)

`qsort` sorts each partition with the comparator; for entries with
pairwise distinct keys the comparator admits exactly one sorted
arrangement, so any comparison sort is a faithful model.  We use a
structural insertion sort so that the definitions evaluate. -/

/-- Insert an entry into a list sorted by the nonpositive-comparator
relation. -/
def sortInsert (cmp : FileEntry → FileEntry → Int) (e : FileEntry) :
    List FileEntry → List FileEntry
  | [] => [e]
  | x :: xs => if cmp e x ≤ 0 then e :: x :: xs else x :: sortInsert cmp e xs

/-- Comparison sort with comparator `cmp`, modelling qsort. -/
def sortEntries (cmp : FileEntry → FileEntry → Int) : List FileEntry → List FileEntry
  | [] => []
  | x :: xs => sortInsert cmp x (sortEntries cmp xs)

/-! ## List-mode output (scriptsort.c lines 223-244 and 299-302) -/

/-- The sequence of names emitted by the three output loops: lower_files,
then unordered_files, then upper_files, each sorted by its comparator. -/
def outputNames (cutoff : Nat) (names : List String) : List String :=
  let st := scanDir cutoff names
  ((sortEntries compare_ordered_files st.lower).map FileEntry.name)
    ++ ((sortEntries compare_unordered st.unordered).map FileEntry.name)
    ++ ((sortEntries compare_ordered_files st.upper).map FileEntry.name)

/-- The list-mode buffer: each name followed by the joiner character
(newline, or space under --init), as assembled by the sprintf loops. -/
def listModeBuffer (joiner : Char) (cutoff : Nat) (names : List String) : String :=
  (outputNames cutoff names).foldl (fun acc nm => acc ++ nm ++ String.mk [joiner]) ""

/-! ## Argument parsing (scriptsort.c lines 51-82)

The loop starts at argv[2]; `--cutoff` consumes the following argument
when one exists.  Flag matching uses wal_stricmp (lines 427-438), a
case-insensitive byte comparison. -/

/-- tolower(toupper(c)) in the C locale: map ASCII upper case letters to
lower case, leave every other byte unchanged. -/
def toLowerByte (n : Nat) : Nat := if 65 ≤ n ∧ n ≤ 90 then n + 32 else n

/-- wal_stricmp from scriptsort.c lines 427-438, on the characters of the
two argument strings (the arguments considered here are ASCII, one byte
per character). -/
def wal_stricmp : List Char → List Char → Int
  | [], [] => 0
  | [], _ :: _ => -1
  | _ :: _, [] => 1
  | a :: as, b :: bs =>
      let ca := toLowerByte a.toNat
      let cb := toLowerByte b.toNat
      if ca = cb then wal_stricmp as bs
      else if ca < cb then -1 else 1

/-- Truncation of a mathematical integer to a 32-bit two's-complement
int, the (implementation-defined) effect of converting an out-of-range
long to int. -/
def toCInt (n : Int) : Int := (n + 2147483648) % 4294967296 - 2147483648

/-- C atoi: `(int)strtol(nptr, NULL, 10)`. -/
def atoiModel (s : String) : Int := toCInt (strtolModel s.toList).1

/-- The flag variables of main (lines 52, 60-62): cutoff_count is an
unsigned int initialised to 50. -/
structure Config where
  init : Bool
  bundle : Bool
  debugtext : Bool
  cutoff : Nat
deriving DecidableEq

/-- Initial configuration of main. -/
def defaultConfig : Config := ⟨false, false, false, 50⟩

/-- The argument loop of scriptsort.c lines 64-82 over the arguments
following the directory path.  `.error ()` models `return 1` after the
usage message that the cutoff branch prints to standard output; every
other argument falls through the else-if chain without any diagnostic.
A trailing `--cutoff` with no following argument fails the
`i + 1 < argc` test, so no branch runs and the loop simply ends. -/
def parseArgs : List String → Config → Except Unit Config
  | [], cfg => .ok cfg
  | a :: rest, cfg =>
    if wal_stricmp a.toList "--init".toList = 0 then
      parseArgs rest { cfg with init := true }
    else if wal_stricmp a.toList "--bundle".toList = 0 then
      parseArgs rest { cfg with bundle := true }
    else if wal_stricmp a.toList "--debug".toList = 0 then
      parseArgs rest { cfg with debugtext := true }
    else if wal_stricmp a.toList "--cutoff".toList = 0 then
      match rest with
      | [] => .ok cfg
      | v :: rest2 =>
          if atoiModel v ≤ 0 then .error ()
          else parseArgs rest2 { cfg with cutoff := (atoiModel v).toNat }
    else parseArgs rest cfg

/-- List-mode run of main: parse the arguments (which happens before
opendir), then scan, sort and join the names.  A parse error yields no
output and no scan — the result does not depend on the directory
listing. -/
def scriptsortList (names : List String) (args : List String) : Except Unit String :=
  match parseArgs args defaultConfig with
  | .error e => .error e
  | .ok cfg => .ok (listModeBuffer (if cfg.init then ' ' else '\n') cfg.cutoff names)

/-! ## Buffer growth (scriptsort.c lines 481-499)

`ensure_buffer_capacity` doubles the capacity while it is below the
needed size, then reallocates.  The doubling loop is modelled with a
fuel argument (`needed` doublings always suffice for a positive
capacity; a zero capacity, for which the C loop would not terminate, is
unreachable because the buffer starts at INITIAL_BUFFER_SIZE). -/

/-- The `while (new_capacity < needed_size) new_capacity *= 2;` loop. -/
def growLoop : Nat → Nat → Nat → Nat
  | 0, cap, _ => cap
  | fuel + 1, cap, needed => if cap < needed then growLoop fuel (2 * cap) needed else cap

/-- Capacity computed by ensure_buffer_capacity (scriptsort.c lines
481-499) when the reallocation succeeds: unchanged unless the needed
size exceeds the current capacity, in which case repeated doubling. -/
def ensure_buffer_capacity (cap needed : Nat) : Nat :=
  if cap < needed then growLoop needed cap needed else cap

/-! ## Bundle mode (scriptsort.c lines 141-222 and 440-479)

The file system is a function from file name to read outcome; the four
failure constructors correspond to the fopen, stat, malloc and fread
failure paths of read_file_contents, all of which return NULL to main.
File contents are byte lists.

The assembly buffer is modelled as a byte list indexed from 0 in which
unwritten (indeterminate) positions are represented by 0.  This is
observationally faithful: the only read of the buffer is
`printf("%s\n", buffer)`, which stops at the first 0 byte, and every
gap of indeterminate bytes the C code can create sits behind the
terminating 0 written by strcat, so an indeterminate byte is never
reached by the printf. -/

/-- Outcome of the file-system calls made by read_file_contents for one
file. -/
inductive ReadOutcome where
  | ok (bytes : List Nat)
  | openFail
  | statFail
  | allocFail
  | readFail
deriving DecidableEq

/-- read_file_contents from scriptsort.c lines 440-479 as seen by its
caller: the file's bytes on success, NULL (`none`) on any of the four
failure paths. -/
def read_file_contents (fs : String → ReadOutcome) (name : String) : Option (List Nat) :=
  match fs name with
  | .ok bytes => some bytes
  | _ => none

/-- Write the byte list `bs` into the buffer starting at position `pos`
(positions beyond the current end first padded with the indeterminate
marker 0). -/
def writeBytes (buf : List Nat) (pos : Nat) (bs : List Nat) : List Nat :=
  (buf.take pos ++ List.replicate (pos - buf.length) 0) ++ bs ++ buf.drop (pos + bs.length)

/-- State of the bundle assembly: the buffer bytes, current_size and
buffer_capacity. -/
structure BundleState where
  buf : List Nat
  cs : Nat
  cap : Nat
deriving DecidableEq

/-- The body of one bundle-loop iteration after a successful read
(scriptsort.c lines 166-170): `strcat(buffer + current_size,
file_contents)` copies the contents up to their first NUL byte plus a
terminating NUL, then the full file size is added to current_size, a
newline is stored and the new end is NUL-terminated. -/
def writeState (contents : List Nat) (st : BundleState) : BundleState :=
  let b1 := writeBytes st.buf st.cs ((contents.takeWhile (fun b => b ≠ 0)) ++ [0])
  let b2 := writeBytes b1 (st.cs + contents.length) [10]
  let b3 := writeBytes b2 (st.cs + contents.length + 1) [0]
  ⟨b3, st.cs + contents.length + 1, st.cap⟩

/-- The three bundle loops of main (scriptsort.c lines 155-205) over the
already-ordered name sequence.  `alloc` tells whether a reallocation to
the given capacity succeeds; a failed reallocation aborts the run
(`return EXIT_FAILURE`), an unreadable file is skipped. -/
def bundleRun (fs : String → ReadOutcome) (alloc : Nat → Bool) :
    List String → BundleState → Except Unit BundleState
  | [], st => .ok st
  | name :: rest, st =>
    match read_file_contents fs name with
    | none => bundleRun fs alloc rest st
    | some contents =>
        let needed := st.cs + contents.length + 2
        if st.cap < needed then
          let nc := growLoop needed st.cap needed
          if alloc nc then
            bundleRun fs alloc rest (writeState contents ⟨st.buf, st.cs, nc⟩)
          else .error ()
        else bundleRun fs alloc rest (writeState contents st)

/-- Bundle run as main performs it when every allocation succeeds:
buffer malloc'd with INITIAL_BUFFER_SIZE, `buffer[0] = '\0'`,
current_size 0.  The result is the C string printed by
`printf("%s\n", buffer)` — the buffer bytes up to the first 0. -/
def assembledBundle (fs : String → ReadOutcome) (names : List String) :
    Option (List Nat) :=
  match bundleRun fs (fun _ => true) names ⟨[0], 0, INITIAL_BUFFER_SIZE⟩ with
  | .ok st => some (st.buf.takeWhile (fun b => b ≠ 0))
  | .error _ => none

/-- The bytes written to standard output by `printf("%s\n", buffer)`
(scriptsort.c line 214): the assembled C string plus one newline. -/
def emittedBundle (fs : String → ReadOutcome) (names : List String) :
    Option (List Nat) :=
  (assembledBundle fs names).map (fun bs => bs ++ [10])

/-! ## Diagnostics whose wording the claims constrain -/

/-- Message of scriptsort.c line 149 (initial bundle-buffer malloc
failure). -/
def initialAllocFailMsg : String := "Failed to allocate initial buffer"

/-- Message of scriptsort.c line 490 (realloc failure), with the
attempted size substituted for %zu. -/
def reallocFailMsg (n : Nat) : String :=
  "Failed to reallocate buffer to size " ++ Nat.repr n

/-- Message of scriptsort.c line 461 (malloc failure for one file's
contents), with the path substituted for %s. -/
def fileAllocFailMsg (path : String) : String :=
  "Error allocating memory for file " ++ "'" ++ path ++ "'"

/-- Message of scriptsort.c line 226 (list-mode calloc failure), with
the attempted size substituted for %d. -/
def callocFailMsg (n : Nat) : String :=
  "Cannot allocate buffer of " ++ Nat.repr n ++ " byte(s)"

/-- Whether the character sequence `pat` occurs contiguously inside
`s`. -/
def leadMatch : List Char → List Char → Bool
  | [], _ => true
  | _ :: _, [] => false
  | p :: ps, c :: cs => p = c && leadMatch ps cs

/-- Substring test used to formalise "reported with the attempted
size". -/
def containsSeq (pat : List Char) : List Char → Bool
  | [] => pat.isEmpty
  | c :: rest => leadMatch pat (c :: rest) || containsSeq pat rest

/-- Whether a diagnostic message mentions a size: its decimal rendering
occurs in the message text.  Formalises the spec's "reported with the
attempted size". -/
def specMentionsSize (msg : String) (n : Nat) : Bool :=
  containsSeq (Nat.repr n).toList msg.toList

/-! ## Definitions taken from the spec's words, for comparison with the
code (used only to state refuted claims). -/

/-- Modelled from the spec: "ordered.<non-digit><rest> (no digits at all
after the prefix)" — the character immediately following the
`ordered.` prefix is absent or not a digit, the spec's condition for
classifying the name as unordered. -/
def specNoDigitsAfterOrderedDot (f : String) : Bool :=
  match f.toList.drop 8 with
  | [] => true
  | c :: _ => ! c.isDigit

/-- Modelled from the spec: the cutoff argument "parses as a positive
integer" — a nonempty string of decimal digits with positive value. -/
def specParsesAsPositiveInteger (s : String) : Bool :=
  s.toList ≠ [] ∧ s.toList.all Char.isDigit ∧ 0 < digitsToNat s.toList

/-- The spec's description of bundle-mode output: the concatenation of
each readable file's full contents, each followed by exactly one
newline; unreadable files contribute nothing. -/
def specBundleConcat (fs : String → ReadOutcome) : List String → List Nat
  | [] => []
  | nm :: rest =>
    match read_file_contents fs nm with
    | none => specBundleConcat fs rest
    | some c => c ++ [10] ++ specBundleConcat fs rest

/-! ## Concrete instances used by witnesses and counterexamples -/

/-- A file system with a single file `f` whose contents contain a NUL
byte. -/
def nulFileFs : String → ReadOutcome :=
  fun nm => if nm = "f" then .ok [97, 0, 98] else .openFail

/-- A file system where every open succeeds with NUL-free contents. -/
def smallFileFs : String → ReadOutcome := fun _ => .ok [104, 105]

/-- A file system where reading any file fails at its content-buffer
malloc. -/
def allocFailFs : String → ReadOutcome := fun _ => .allocFail

/-- A file system with one large (5000-byte) file under every name. -/
def bigFileFs : String → ReadOutcome := fun _ => .ok (List.replicate 5000 97)

/-- Allocator oracle: every (re)allocation succeeds. -/
def alwaysAlloc : Nat → Bool := fun _ => true

/-- Allocator oracle: every reallocation fails. -/
def neverAlloc : Nat → Bool := fun _ => false

/-- Lines 147-152 of main: the initial bundle-buffer malloc; when it
fails main returns EXIT_FAILURE before any file is processed. -/
def bundleMain (initOk : Bool) (fs : String → ReadOutcome) (alloc : Nat → Bool)
    (names : List String) : Except Unit BundleState :=
  if initOk then bundleRun fs alloc names ⟨[0], 0, INITIAL_BUFFER_SIZE⟩ else .error ()

/-! # Helper lemmas -/

/-- A digit character is not a white-space character. -/
theorem isSpaceChar_of_digit (c : Char) (h : c.isDigit = true) : isSpaceChar c = false := by
  cases hsp : isSpaceChar c
  · rfl
  · exfalso
    have hc : c = ' ' ∨ c = '\t' ∨ c = '\n' ∨ c = '\x0b' ∨ c = '\x0c' ∨ c = '\r' := by
      simpa [isSpaceChar] using hsp
    rcases hc with h1 | h1 | h1 | h1 | h1 | h1 <;> subst h1 <;> exact absurd h (by decide)

/-- A digit character is not a sign character. -/
theorem digit_ne_sign (c : Char) (h : c.isDigit = true) : c ≠ '-' ∧ c ≠ '+' := by
  constructor <;> intro h1 <;> subst h1 <;> exact absurd h (by decide)

/-- takeWhile over a run of satisfying elements followed by a
non-satisfying (or empty) remainder. -/
theorem takeWhile_append_run (p : Char → Bool) (ds rest : List Char)
    (h : ∀ c ∈ ds, p c = true) (h2 : ∀ c ∈ rest.take 1, p c = false) :
    (ds ++ rest).takeWhile p = ds := by
  induction ds with
  | nil =>
      simp only [List.nil_append]
      cases rest with
      | nil => rfl
      | cons c cs => simp [List.takeWhile_cons, h2 c (by simp)]
  | cons d ds ih =>
      have hd : p d = true := h d (by simp)
      simp [List.takeWhile_cons, hd, ih (fun c hc => h c (by simp [hc]))]

/-- dropWhile does nothing when the first element does not satisfy the
predicate. -/
theorem dropWhile_head_no (p : Char → Bool) (l : List Char)
    (h : ∀ c ∈ l.take 1, p c = false) : l.dropWhile p = l := by
  cases l with
  | nil => rfl
  | cons c cs => simp [List.dropWhile_cons, h c (by simp)]

/-- strtol on a digit run followed by a non-digit remainder: the value
is the (clamped) value of the digit run and digits were consumed. -/
theorem strtolModel_digit_run (ds rest : List Char) (hne : ds ≠ [])
    (hds : ∀ c ∈ ds, c.isDigit = true) (hrest : ∀ c ∈ rest.take 1, c.isDigit = false) :
    strtolModel (ds ++ rest) =
      (max (min (digitsToNat ds : Int) C_LONG_MAX) C_LONG_MIN, true) := by
  obtain ⟨d, ds', rfl⟩ : ∃ d ds', ds = d :: ds' := by
    cases ds with
    | nil => exact absurd rfl hne
    | cons d ds' => exact ⟨d, ds', rfl⟩
  have hd : d.isDigit = true := hds d (by simp)
  have hsp : isSpaceChar d = false := isSpaceChar_of_digit d hd
  have hsgn := digit_ne_sign d hd
  have h1 : strtolDrop ((d :: ds') ++ rest) = (d :: ds') ++ rest := by
    apply dropWhile_head_no
    intro c hc
    have : c = d := by simpa using hc
    rw [this]
    exact hsp
  have hhead : ((d :: ds') ++ rest).head? = some d := by simp
  have h2 : strtolSign ((d :: ds') ++ rest) = 1 := by
    unfold strtolSign
    rw [hhead, if_neg (by simp [hsgn.1])]
  have h3 : strtolRest ((d :: ds') ++ rest) = (d :: ds') ++ rest := by
    unfold strtolRest
    rw [hhead, if_neg (by simp [hsgn.1, hsgn.2])]
  have h4 : ((d :: ds') ++ rest).takeWhile Char.isDigit = d :: ds' :=
    takeWhile_append_run Char.isDigit _ _ hds hrest
  unfold strtolModel
  rw [h1, h3, h4, h2]
  simp

/-! # Claim theorems -/

/-- Claim C1 (code_bug): classification does not place order-number-absent
entries in the unordered partition.  The directory entry `fn.a` has no
order number (extract_order_number yields the absent sentinel -1) and is
not skipped, yet the scan stores it in the upper (high) partition and
leaves the unordered partition empty: in `order_num >= cutoff_count`
the int -1 is converted to the unsigned value 4294967295, so the
`else` branch meant for unordered files is unreachable. -/
theorem c1_unordered_entry_lands_in_high :
    (scanDir 50 ["fn.a"]).upper = [⟨"fn.a", -1⟩]
    ∧ (scanDir 50 ["fn.a"]).unordered = []
    ∧ (scanDir 50 ["fn.a"]).lower = []
    ∧ extract_order_number "fn.a" = -1
    ∧ isSkippedName "fn.a" = false := by decide

/-- Claim C2 counterexample: the filename `ordered.+5` has no digit
immediately after the `ordered.` prefix, so the claim classifies it as
unordered (order number absent, -1); but extract_order_number parses it
via strtol, which accepts the sign, and yields 5. -/
theorem c2_counterexample :
    specNoDigitsAfterOrderedDot "ordered.+5" = true
    ∧ extract_order_number "ordered.+5" = 5 := by decide

/-- Claim C2 (amended): a filename not starting with `ordered.` is
unordered; for `ordered.<digits><rest>` the extracted number is the
value of the longest digit run when that value is representable, and
the overflow case is unordered; and when strtol (which first skips
white space and an optional sign) finds no digits, or parses a negative
value, the filename is unordered. -/
theorem c2_amended :
    (∀ f : String, f.toList.take 8 ≠ "ordered.".toList → extract_order_number f = -1)
    ∧ (∀ ds rest : List Char, ds ≠ [] → (∀ c ∈ ds, c.isDigit = true) →
        (∀ c ∈ rest.take 1, c.isDigit = false) →
        ((digitsToNat ds : Int) ≤ C_INT_MAX →
          extract_order_number (String.mk ("ordered.".toList ++ ds ++ rest)) = digitsToNat ds)
        ∧ ((digitsToNat ds : Int) > C_INT_MAX →
          extract_order_number (String.mk ("ordered.".toList ++ ds ++ rest)) = -1))
    ∧ (∀ f : String, f.toList.take 8 = "ordered.".toList →
        (strtolModel (f.toList.drop 8)).2 = false → extract_order_number f = -1)
    ∧ (∀ f : String, f.toList.take 8 = "ordered.".toList →
        (strtolModel (f.toList.drop 8)).1 < 0 → extract_order_number f = -1) := by
  have extract_eq : ∀ l : List Char,
      extract_order_number (String.mk l) =
        (if l.take 8 ≠ "ordered.".toList then -1
         else if (strtolModel (l.drop 8)).2 = false ∨ (strtolModel (l.drop 8)).1 < 0
              ∨ (strtolModel (l.drop 8)).1 > C_INT_MAX then -1
         else (strtolModel (l.drop 8)).1) := fun _ => rfl
  refine ⟨?_, ?_, ?_, ?_⟩
  · intro f h
    have h2 : List.take 8 f.data ≠ "ordered.".toList := h
    rw [show f = String.mk f.data from rfl, extract_eq, if_pos h2]
  · intro ds rest hne hds hrest
    have htake : (("ordered.".toList ++ ds ++ rest)).take 8 = "ordered.".toList := by
      rw [List.append_assoc]
      exact List.take_left' rfl
    have hdrop : (("ordered.".toList ++ ds ++ rest)).drop 8 = ds ++ rest := by
      rw [List.append_assoc]
      exact List.drop_left' rfl
    have hstr := strtolModel_digit_run ds rest hne hds hrest
    have hnn : (0 : Int) ≤ (digitsToNat ds : Int) := Int.ofNat_nonneg _
    constructor
    · intro hle
      have hval :
          max (min ((digitsToNat ds : Int)) C_LONG_MAX) C_LONG_MIN = (digitsToNat ds : Int) := by
        unfold C_LONG_MAX C_LONG_MIN
        unfold C_INT_MAX at hle
        omega
      have hcond : ¬((max (min ((digitsToNat ds : Int)) C_LONG_MAX) C_LONG_MIN, true).2 = false
          ∨ (max (min ((digitsToNat ds : Int)) C_LONG_MAX) C_LONG_MIN, true).1 < 0
          ∨ (max (min ((digitsToNat ds : Int)) C_LONG_MAX) C_LONG_MIN, true).1 > C_INT_MAX) := by
        intro hc
        rcases hc with hc | hc | hc
        · simp at hc
        · rw [hval] at hc
          omega
        · rw [hval] at hc
          unfold C_INT_MAX at hc hle
          omega
      rw [extract_eq, if_neg (fun hc => hc htake), hdrop, hstr, if_neg hcond]
      exact hval
    · intro hgt
      have hcond : ((max (min ((digitsToNat ds : Int)) C_LONG_MAX) C_LONG_MIN, true).2 = false
          ∨ (max (min ((digitsToNat ds : Int)) C_LONG_MAX) C_LONG_MIN, true).1 < 0
          ∨ (max (min ((digitsToNat ds : Int)) C_LONG_MAX) C_LONG_MIN, true).1 > C_INT_MAX) := by
        right; right
        show max (min ((digitsToNat ds : Int)) C_LONG_MAX) C_LONG_MIN > C_INT_MAX
        unfold C_LONG_MAX C_LONG_MIN
        unfold C_INT_MAX at hgt ⊢
        omega
      rw [extract_eq, if_neg (fun hc => hc htake), hdrop, hstr, if_pos hcond]
  · intro f hpre hfail
    have hpre2 : List.take 8 f.data = "ordered.".toList := hpre
    have hfail2 : (strtolModel (List.drop 8 f.data)).2 = false := hfail
    rw [show f = String.mk f.data from rfl, extract_eq, if_neg (fun hc => hc hpre2)]
    rw [if_pos (Or.inl hfail2)]
  · intro f hpre hneg
    have hpre2 : List.take 8 f.data = "ordered.".toList := hpre
    have hneg2 : (strtolModel (List.drop 8 f.data)).1 < 0 := hneg
    rw [show f = String.mk f.data from rfl, extract_eq, if_neg (fun hc => hc hpre2)]
    rw [if_pos (Or.inr (Or.inl hneg2))]

/-- Claim C2 witness: the spec's own example `ordered.07.setup` extracts
7, through the amended theorem. -/
theorem c2_witness :
    extract_order_number
        (String.mk ("ordered.".toList ++ ['0', '7'] ++ ['.', 's'])) =
      digitsToNat ['0', '7'] :=
  (c2_amended.2.1 ['0', '7'] ['.', 's'] (by decide) (by decide) (by decide)).1 (by decide)

set_option maxRecDepth 100000 in
/-- Claim C3 (code_bug): list-mode output loses entries even when every
spec partition is within its cap, because unordered entries share the
upper_files array (and its MAX_FILES cap) with high entries.  Here the
upper array holds MAX_FILES entries with order number 50 (at the
cutoff), the unordered partition is empty, and the non-skipped
unordered entry `zz` is dropped by the scan step, so it cannot appear
in any later output. -/
theorem c3_unordered_dropped_by_shared_cap :
    scanStep 50 ⟨[], [], List.replicate MAX_FILES ⟨"ordered.50", 50⟩⟩ "zz"
        = ⟨[], [], List.replicate MAX_FILES ⟨"ordered.50", 50⟩⟩
    ∧ isSkippedName "zz" = false
    ∧ extract_order_number "zz" = -1
    ∧ (⟨[], [], List.replicate MAX_FILES ⟨"ordered.50", 50⟩⟩ : ScanState).unordered.length = 0
    := by
  refine ⟨by decide, by decide, by decide, rfl⟩

/-- Claim C5 counterexample: `--cutoff 5x` is not a positive integer,
so the claim requires a usage error; but atoi parses the numeric prefix
and the program proceeds with cutoff 5 and no error. -/
theorem c5_counterexample :
    parseArgs ["--cutoff", "5x"] defaultConfig = .ok ⟨false, false, false, 5⟩
    ∧ specParsesAsPositiveInteger "5x" = false :=
  ⟨rfl, by decide⟩

/-- Claim C5 (amended): for `--cutoff <N>`, if the atoi value of N (the
longest numeric prefix after optional white space and sign) is
positive, the cutoff is set to that value and parsing continues;
otherwise the program reports a usage error (printed to standard
output) and exits with failure status, producing no output and no scan
— the run's result is an error independent of the directory
listing. -/
theorem c5_cutoff_validation (v : String) (rest : List String) (cfg : Config) :
    (0 < atoiModel v →
      parseArgs ("--cutoff" :: v :: rest) cfg
        = parseArgs rest { cfg with cutoff := (atoiModel v).toNat })
    ∧ (atoiModel v ≤ 0 → parseArgs ("--cutoff" :: v :: rest) cfg = .error ())
    ∧ (∀ (names args : List String),
        parseArgs args defaultConfig = .error () → scriptsortList names args = .error ()) := by
  have hchain : parseArgs ("--cutoff" :: v :: rest) cfg =
      (if atoiModel v ≤ 0 then .error ()
       else parseArgs rest { cfg with cutoff := (atoiModel v).toNat }) := rfl
  refine ⟨?_, ?_, ?_⟩
  · intro hpos
    rw [hchain, if_neg (by omega)]
  · intro hle
    rw [hchain, if_pos hle]
  · intro names args herr
    unfold scriptsortList
    rw [herr]

/-- Claim C5 witness: `--cutoff 7` sets the cutoff to 7 and continues;
`--cutoff 0` and `--cutoff -5` are usage errors with no output for any
directory listing. -/
theorem c5_cutoff_validation_witness :
    parseArgs ["--cutoff", "7"] defaultConfig
      = parseArgs [] { defaultConfig with cutoff := (atoiModel "7").toNat }
    ∧ parseArgs ["--cutoff", "0"] defaultConfig = .error ()
    ∧ scriptsortList ["fn.a"] ["--cutoff", "-5"] = .error () :=
  ⟨(c5_cutoff_validation "7" [] defaultConfig).1 (by decide),
   (c5_cutoff_validation "0" [] defaultConfig).2.1 (by decide),
   (c5_cutoff_validation "-5" [] defaultConfig).2.2 ["fn.a"] ["--cutoff", "-5"]
     ((c5_cutoff_validation "-5" [] defaultConfig).2.1 (by decide))⟩

/-- Claim C6 (code_bug): the comparator is not a total order over all
representable order numbers.  For entries with order numbers INT_MAX
and -1 (the absent sentinel) the int subtraction overflows and wraps,
so both argument orders return a negative result: each entry compares
strictly before the other, contradicting antisymmetry, the claim, and
the comparator's own documented contract ("Negative if a < b, positive
if a > b"). -/
theorem c6_comparator_overflow :
    compare_unordered ⟨"a", 2147483647⟩ ⟨"b", -1⟩ < 0
    ∧ compare_unordered ⟨"b", -1⟩ ⟨"a", 2147483647⟩ < 0
    ∧ compare_ordered_files ⟨"a", 2147483647⟩ ⟨"b", -1⟩ < 0
    ∧ compare_ordered_files ⟨"b", -1⟩ ⟨"a", 2147483647⟩ < 0 := by decide

/-- Claim C10: an argument matching none of the four known flags under
wal_stricmp's case-insensitive comparison falls through the else-if
chain with no effect and no diagnostic, and a final `--cutoff` with no
following value fails the `i + 1 < argc` guard, so it is ignored and
the cutoff keeps its default 50. -/
theorem c10_unknown_args_ignored (a : String) (rest : List String) (cfg : Config)
    (h1 : ¬ wal_stricmp a.toList "--init".toList = 0)
    (h2 : ¬ wal_stricmp a.toList "--bundle".toList = 0)
    (h3 : ¬ wal_stricmp a.toList "--debug".toList = 0)
    (h4 : ¬ wal_stricmp a.toList "--cutoff".toList = 0) :
    parseArgs (a :: rest) cfg = parseArgs rest cfg
    ∧ (∀ cfg2 : Config, parseArgs ["--cutoff"] cfg2 = .ok cfg2)
    ∧ defaultConfig.cutoff = 50 := by
  refine ⟨?_, fun _ => rfl, rfl⟩
  cases rest with
  | nil =>
      have e : parseArgs [a] cfg =
          (if wal_stricmp a.toList "--init".toList = 0 then
            parseArgs [] { cfg with init := true }
          else if wal_stricmp a.toList "--bundle".toList = 0 then
            parseArgs [] { cfg with bundle := true }
          else if wal_stricmp a.toList "--debug".toList = 0 then
            parseArgs [] { cfg with debugtext := true }
          else if wal_stricmp a.toList "--cutoff".toList = 0 then
            .ok cfg
          else parseArgs [] cfg) := rfl
      rw [e, if_neg h1, if_neg h2, if_neg h3, if_neg h4]
  | cons b rest2 =>
      have e : parseArgs (a :: b :: rest2) cfg =
          (if wal_stricmp a.toList "--init".toList = 0 then
            parseArgs (b :: rest2) { cfg with init := true }
          else if wal_stricmp a.toList "--bundle".toList = 0 then
            parseArgs (b :: rest2) { cfg with bundle := true }
          else if wal_stricmp a.toList "--debug".toList = 0 then
            parseArgs (b :: rest2) { cfg with debugtext := true }
          else if wal_stricmp a.toList "--cutoff".toList = 0 then
            (if atoiModel b ≤ 0 then .error ()
             else parseArgs rest2 { cfg with cutoff := (atoiModel b).toNat })
          else parseArgs (b :: rest2) cfg) := rfl
      rw [e, if_neg h1, if_neg h2, if_neg h3, if_neg h4]

/-- Claim C10 witness: the unknown argument `--Frobnicate` (checked
against all four flags case-insensitively) is ignored. -/
theorem c10_unknown_args_ignored_witness :
    parseArgs ["--Frobnicate"] defaultConfig = parseArgs [] defaultConfig
    ∧ parseArgs ["--cutoff"] defaultConfig = .ok defaultConfig :=
  ⟨(c10_unknown_args_ignored "--Frobnicate" [] defaultConfig
      (by decide) (by decide) (by decide) (by decide)).1,
   (c10_unknown_args_ignored "--Frobnicate" [] defaultConfig
      (by decide) (by decide) (by decide) (by decide)).2.1 defaultConfig⟩

/-- The doubling loop reaches at least the needed size, given a
positive starting capacity and enough fuel. -/
theorem growLoop_ge (fuel : Nat) : ∀ cap needed : Nat, 1 ≤ cap →
    needed ≤ cap * 2 ^ fuel → needed ≤ growLoop fuel cap needed := by
  induction fuel with
  | zero =>
      intro cap needed hc h
      simpa [growLoop] using (by simpa using h)
  | succ f ih =>
      intro cap needed hc h
      unfold growLoop
      split
      · apply ih (2 * cap) needed (by omega)
        calc needed ≤ cap * 2 ^ (f + 1) := h
          _ = 2 * cap * 2 ^ f := by ring
      · omega

/-- The doubling loop only multiplies the capacity by powers of two. -/
theorem growLoop_pow (fuel : Nat) : ∀ cap needed : Nat,
    ∃ k, growLoop fuel cap needed = 2 ^ k * cap := by
  induction fuel with
  | zero =>
      intro cap needed
      exact ⟨0, by simp [growLoop]⟩
  | succ f ih =>
      intro cap needed
      unfold growLoop
      split
      · obtain ⟨k, hk⟩ := ih (2 * cap) needed
        exact ⟨k + 1, by rw [hk]; ring⟩
      · exact ⟨0, by simp⟩

/-- Claim C7: ensure_buffer_capacity leaves a sufficient capacity
unchanged; when the needed size exceeds the capacity it doubles
repeatedly, so starting from any power-of-two multiple of
INITIAL_BUFFER_SIZE (as main does) the capacity is always such a
multiple; and the resulting capacity is at least the needed size, i.e.
at least the bytes appended so far plus the bytes about to be
appended. -/
theorem c7_buffer_capacity (cap needed j : Nat)
    (hcap : cap = 2 ^ j * INITIAL_BUFFER_SIZE) :
    (needed ≤ cap → ensure_buffer_capacity cap needed = cap)
    ∧ (cap < needed → cap < ensure_buffer_capacity cap needed)
    ∧ (∃ k, ensure_buffer_capacity cap needed = 2 ^ k * INITIAL_BUFFER_SIZE)
    ∧ needed ≤ ensure_buffer_capacity cap needed := by
  have hpos : 1 ≤ cap := by
    rw [hcap]
    have h2 : 1 ≤ 2 ^ j := Nat.one_le_two_pow
    unfold INITIAL_BUFFER_SIZE
    omega
  have hge : needed ≤ ensure_buffer_capacity cap needed := by
    unfold ensure_buffer_capacity
    split
    · apply growLoop_ge needed cap needed hpos
      have h1 : needed < 2 ^ needed := Nat.lt_two_pow needed
      have h2 : 2 ^ needed ≤ cap * 2 ^ needed := Nat.le_mul_of_pos_left _ hpos
      omega
    · omega
  refine ⟨?_, ?_, ?_, hge⟩
  · intro h
    unfold ensure_buffer_capacity
    rw [if_neg (by omega)]
  · intro h
    omega
  · unfold ensure_buffer_capacity
    split
    · obtain ⟨k, hk⟩ := growLoop_pow needed cap needed
      exact ⟨k + j, by rw [hk, hcap]; ring⟩
    · exact ⟨j, hcap⟩

/-- Claim C7 witness: from the initial capacity 4096 with 5000 bytes
needed, the capacity grows and suffices. -/
theorem c7_buffer_capacity_witness :
    5000 ≤ ensure_buffer_capacity 4096 5000
    ∧ ensure_buffer_capacity 4096 4000 = 4096 :=
  ⟨(c7_buffer_capacity 4096 5000 0 (by decide)).2.2.2,
   (c7_buffer_capacity 4096 4000 0 (by decide)).1 (by decide)⟩

/-- One scan step keeps every partition within MAX_FILES. -/
theorem scanStep_caps (cutoff : Nat) (st : ScanState) (name : String)
    (h1 : st.lower.length ≤ MAX_FILES) (h2 : st.unordered.length ≤ MAX_FILES)
    (h3 : st.upper.length ≤ MAX_FILES) :
    (scanStep cutoff st name).lower.length ≤ MAX_FILES
    ∧ (scanStep cutoff st name).unordered.length ≤ MAX_FILES
    ∧ (scanStep cutoff st name).upper.length ≤ MAX_FILES := by
  unfold scanStep
  split
  · exact ⟨h1, h2, h3⟩
  · split <;> split <;> simp_all [List.length_append] <;> omega

/-- One scan step only ever appends to the partitions. -/
theorem scanStep_grows (cutoff : Nat) (st : ScanState) (name : String) :
    st.lower <+: (scanStep cutoff st name).lower
    ∧ st.unordered <+: (scanStep cutoff st name).unordered
    ∧ st.upper <+: (scanStep cutoff st name).upper := by
  unfold scanStep
  split
  · exact ⟨List.prefix_refl _, List.prefix_refl _, List.prefix_refl _⟩
  · split <;> split <;> simp_all

/-- The whole scan keeps every partition within MAX_FILES. -/
theorem scanDirFrom_caps (cutoff : Nat) (names : List String) :
    ∀ st : ScanState, st.lower.length ≤ MAX_FILES → st.unordered.length ≤ MAX_FILES →
    st.upper.length ≤ MAX_FILES →
    (scanDirFrom cutoff st names).lower.length ≤ MAX_FILES
    ∧ (scanDirFrom cutoff st names).unordered.length ≤ MAX_FILES
    ∧ (scanDirFrom cutoff st names).upper.length ≤ MAX_FILES := by
  induction names with
  | nil => intro st h1 h2 h3; exact ⟨h1, h2, h3⟩
  | cons n ns ih =>
      intro st h1 h2 h3
      obtain ⟨g1, g2, g3⟩ := scanStep_caps cutoff st n h1 h2 h3
      exact ih (scanStep cutoff st n) g1 g2 g3

/-- The whole scan only ever appends to the partitions. -/
theorem scanDirFrom_grows (cutoff : Nat) (names : List String) :
    ∀ st : ScanState,
    st.lower <+: (scanDirFrom cutoff st names).lower
    ∧ st.unordered <+: (scanDirFrom cutoff st names).unordered
    ∧ st.upper <+: (scanDirFrom cutoff st names).upper := by
  induction names with
  | nil =>
      intro st
      exact ⟨List.prefix_refl _, List.prefix_refl _, List.prefix_refl _⟩
  | cons n ns ih =>
      intro st
      obtain ⟨s1, s2, s3⟩ := scanStep_grows cutoff st n
      obtain ⟨t1, t2, t3⟩ := ih (scanStep cutoff st n)
      exact ⟨s1.trans t1, s2.trans t2, s3.trans t3⟩

/-- Claim C9: every partition holds at most MAX_FILES (1000) entries
throughout the scan; a non-skipped entry routed to a full partition is
dropped, leaving the whole state (hence every stored entry) unchanged
— the scan loop emits no diagnostic at all, so the drop is silent —
and the scan only appends, so entries already stored are never removed
by later scanning. -/
theorem c9_partition_caps (cutoff : Nat) (st : ScanState) (names : List String)
    (h : st.lower.length ≤ MAX_FILES ∧ st.unordered.length ≤ MAX_FILES
      ∧ st.upper.length ≤ MAX_FILES) :
    ((scanDirFrom cutoff st names).lower.length ≤ MAX_FILES
      ∧ (scanDirFrom cutoff st names).unordered.length ≤ MAX_FILES
      ∧ (scanDirFrom cutoff st names).upper.length ≤ MAX_FILES)
    ∧ (st.lower <+: (scanDirFrom cutoff st names).lower
      ∧ st.unordered <+: (scanDirFrom cutoff st names).unordered
      ∧ st.upper <+: (scanDirFrom cutoff st names).upper)
    ∧ (∀ name : String, isSkippedName name = false →
        (categorize (extract_order_number name) cutoff = Category.low →
          st.lower.length = MAX_FILES → scanStep cutoff st name = st)
        ∧ (categorize (extract_order_number name) cutoff = Category.high →
          st.upper.length = MAX_FILES → scanStep cutoff st name = st)
        ∧ (categorize (extract_order_number name) cutoff = Category.unordered →
          st.unordered.length = MAX_FILES → scanStep cutoff st name = st)) := by
  refine ⟨scanDirFrom_caps cutoff names st h.1 h.2.1 h.2.2,
    scanDirFrom_grows cutoff names st, ?_⟩
  intro name hskip
  have hstep : scanStep cutoff st name =
      (match categorize (extract_order_number name) cutoff with
       | Category.low =>
          if st.lower.length < MAX_FILES then
            { st with lower := st.lower ++ [⟨name, extract_order_number name⟩] }
          else st
       | Category.high =>
          if st.upper.length < MAX_FILES then
            { st with upper := st.upper ++ [⟨name, extract_order_number name⟩] }
          else st
       | Category.unordered =>
          if st.unordered.length < MAX_FILES then
            { st with unordered := st.unordered ++ [⟨name, extract_order_number name⟩] }
          else st) := by
    unfold scanStep
    rw [if_neg (by simp [hskip])]
  refine ⟨?_, ?_, ?_⟩ <;> intro hcat hfull <;> rw [hstep, hcat] <;>
    exact if_neg (by omega)

set_option maxRecDepth 100000 in
/-- Claim C9 witness: scanning three entries from the empty state keeps
the caps and prefixes, and with a full lower partition the low entry
`ordered.3.x` is dropped without change. -/
theorem c9_partition_caps_witness :
    (scanDirFrom 50 ⟨[], [], []⟩ ["ordered.3.x", "fn.a", "skip.tmp"]).lower.length ≤ MAX_FILES
    ∧ scanStep 50 ⟨List.replicate MAX_FILES ⟨"ordered.3.x", 3⟩, [], []⟩ "ordered.3.x"
        = ⟨List.replicate MAX_FILES ⟨"ordered.3.x", 3⟩, [], []⟩ :=
  ⟨(c9_partition_caps 50 ⟨[], [], []⟩ ["ordered.3.x", "fn.a", "skip.tmp"]
      (by refine ⟨?_, ?_, ?_⟩ <;> simp [MAX_FILES])).1.1,
   ((c9_partition_caps 50 ⟨List.replicate MAX_FILES ⟨"ordered.3.x", 3⟩, [], []⟩ []
      (by refine ⟨?_, ?_, ?_⟩ <;> simp [MAX_FILES])).2.2 "ordered.3.x" (by decide)).1
      (by decide) (by simp [MAX_FILES])⟩

/-- writeBytes into the middle of a buffer: writing at the boundary
between `x` and `y` keeps `x`, stores the new bytes, and keeps whatever
part of `y` lies beyond them. -/
theorem writeBytes_at (x y bs : List Nat) (pos : Nat) (hp : pos = x.length) :
    writeBytes (x ++ y) pos bs = x ++ bs ++ y.drop bs.length := by
  subst hp
  unfold writeBytes
  rw [List.take_left]
  have h1 : x.length - (x ++ y).length = 0 := by simp [List.length_append]
  rw [h1]
  simp [List.drop_append]

/-- writeBytes at the end of the buffer appends. -/
theorem writeBytes_at_end (x bs : List Nat) (pos : Nat) (hp : pos = x.length) :
    writeBytes x pos bs = x ++ bs := by
  subst hp
  unfold writeBytes
  rw [List.take_length]
  have h1 : x.length - x.length = 0 := by omega
  rw [h1]
  have h2 : x.drop (x.length + bs.length) = [] :=
    List.drop_eq_nil_of_le (by omega)
  rw [h2]
  simp

/-- takeWhile over NUL-free bytes consumes everything. -/
theorem takeWhile_of_ne_zero (l : List Nat) (h : (0 : Nat) ∉ l) :
    l.takeWhile (fun b => b ≠ 0) = l := by
  induction l with
  | nil => rfl
  | cons a as ih =>
      have ha : a ≠ 0 := fun he => h (by simp [he])
      simp only [List.takeWhile_cons]
      rw [if_pos (by simpa using ha)]
      rw [ih (fun hm => h (by simp [hm]))]

/-- takeWhile up to the terminating NUL recovers the NUL-free bytes
before it. -/
theorem takeWhile_append_zero (x : List Nat) (h : (0 : Nat) ∉ x) :
    (x ++ [0]).takeWhile (fun b => b ≠ 0) = x := by
  induction x with
  | nil => simp [List.takeWhile_cons]
  | cons a as ih =>
      have ha : a ≠ 0 := fun he => h (by simp [he])
      simp only [List.cons_append, List.takeWhile_cons]
      rw [if_pos (by simpa using ha)]
      rw [ih (fun hm => h (by simp [hm]))]

/-- One successful bundle append on a well-formed buffer (NUL-free
content before a terminating NUL): the contents and a newline are
appended and the C string grows exactly by them. -/
theorem writeState_eq (contents acc : List Nat) (cap : Nat)
    (h : (0 : Nat) ∉ contents) :
    writeState contents ⟨acc ++ [0], acc.length, cap⟩ =
      ⟨((acc ++ contents) ++ [10]) ++ [0], acc.length + contents.length + 1, cap⟩ := by
  unfold writeState
  simp only []
  rw [takeWhile_of_ne_zero contents h]
  rw [writeBytes_at acc [0] (contents ++ [0]) _ rfl]
  have e1 : acc ++ (contents ++ [0]) ++ List.drop (contents ++ [0]).length [0]
      = (acc ++ contents) ++ [0] := by
    rw [List.drop_eq_nil_of_le (by simp)]
    simp
  rw [e1]
  rw [writeBytes_at (acc ++ contents) [0] [10] _ (by simp)]
  have e2 : (acc ++ contents) ++ [10] ++ List.drop [10].length [0]
      = (acc ++ contents) ++ [10] := by simp
  rw [e2]
  rw [writeBytes_at_end ((acc ++ contents) ++ [10]) [0] _
    (by simp only [List.length_append, List.length_cons, List.length_nil])]

/-- A successful read comes from an `ok` file-system outcome. -/
theorem read_ok_of_some (fs : String → ReadOutcome) (nm : String) (contents : List Nat)
    (hr : read_file_contents fs nm = some contents) : fs nm = ReadOutcome.ok contents := by
  cases hfs : fs nm <;> simp [read_file_contents, hfs] at hr
  simp [hr]

/-- If every readable file is NUL-free, so is the spec's concatenation
(newlines are the byte 10). -/
theorem specBundleConcat_ne_zero (fs : String → ReadOutcome)
    (hfs : ∀ nm bs, fs nm = ReadOutcome.ok bs → (0 : Nat) ∉ bs) :
    ∀ names : List String, (0 : Nat) ∉ specBundleConcat fs names := by
  intro names
  induction names with
  | nil => simp [specBundleConcat]
  | cons nm rest ih =>
      cases hr : read_file_contents fs nm with
      | none => simpa [specBundleConcat, hr] using ih
      | some c =>
          have hc : (0 : Nat) ∉ c := hfs nm c (read_ok_of_some fs nm c hr)
          simp only [specBundleConcat, hr]
          intro hm
          rcases List.mem_append.mp hm with hm1 | hm2
          · rcases List.mem_append.mp hm1 with hm3 | hm4
            · exact hc hm3
            · simp at hm4
          · exact ih hm2

/-- Bundle loop with all allocations succeeding over NUL-free readable
files: starting from a well-formed buffer holding `acc`, it ends with
the buffer holding `acc` followed by the spec concatenation. -/
theorem bundleRun_ok (fs : String → ReadOutcome)
    (hfs : ∀ nm bs, fs nm = ReadOutcome.ok bs → (0 : Nat) ∉ bs) :
    ∀ (names : List String) (acc : List Nat) (cap : Nat),
    ∃ cap2, bundleRun fs alwaysAlloc names ⟨acc ++ [0], acc.length, cap⟩ =
      .ok ⟨(acc ++ specBundleConcat fs names) ++ [0],
           acc.length + (specBundleConcat fs names).length, cap2⟩ := by
  intro names
  induction names with
  | nil =>
      intro acc cap
      exact ⟨cap, by simp [bundleRun, specBundleConcat]⟩
  | cons nm rest ih =>
      intro acc cap
      cases hr : read_file_contents fs nm with
      | none =>
          obtain ⟨cap2, h2⟩ := ih acc cap
          refine ⟨cap2, ?_⟩
          simp only [bundleRun, specBundleConcat, hr]
          exact h2
      | some contents =>
          have h0 : (0 : Nat) ∉ contents := hfs nm contents (read_ok_of_some fs nm contents hr)
          have hacc2 : ((acc ++ contents) ++ [10]).length
              = acc.length + contents.length + 1 := by
            simp only [List.length_append, List.length_cons, List.length_nil]
          have hstep : ∀ cap1 : Nat,
              writeState contents ⟨acc ++ [0], acc.length, cap1⟩ =
                ⟨(((acc ++ contents) ++ [10])) ++ [0],
                 ((acc ++ contents) ++ [10]).length, cap1⟩ := by
            intro cap1
            rw [writeState_eq contents acc cap1 h0, hacc2]
          have hspec : specBundleConcat fs (nm :: rest)
              = contents ++ [10] ++ specBundleConcat fs rest := by
            simp [specBundleConcat, hr]
          have hglue :
              ((acc ++ contents) ++ [10]) ++ specBundleConcat fs rest
                = acc ++ specBundleConcat fs (nm :: rest) := by
            rw [hspec]
            simp [List.append_assoc]
          have hlen :
              ((acc ++ contents) ++ [10]).length + (specBundleConcat fs rest).length
                = acc.length + (specBundleConcat fs (nm :: rest)).length := by
            rw [hspec]
            simp only [List.length_append, List.length_cons, List.length_nil]
            omega
          obtain ⟨cap2, h2⟩ := ih ((acc ++ contents) ++ [10]) cap
          obtain ⟨cap3, h3⟩ := ih ((acc ++ contents) ++ [10])
            (growLoop (acc.length + contents.length + 2) cap
              (acc.length + contents.length + 2))
          by_cases hcap : cap < acc.length + contents.length + 2
          · refine ⟨cap3, ?_⟩
            simp only [bundleRun, hr]
            rw [if_pos (by simpa using hcap)]
            have htrue : alwaysAlloc (growLoop (acc.length + contents.length + 2) cap
                (acc.length + contents.length + 2)) = true := rfl
            rw [if_pos htrue, hstep]
            rw [h3, hglue, hlen]
          · refine ⟨cap2, ?_⟩
            simp only [bundleRun, hr]
            rw [if_neg (by simpa using hcap), hstep]
            rw [h2, hglue, hlen]

/-- Claim C4 counterexample: a readable file whose contents are
`[97, 0, 98]` (with an embedded NUL byte).  The claim demands the
bundle output `[97, 0, 98, 10]`, but strcat stops copying at the NUL
and printf stops printing at it, so the assembled C string is just
`[97]`. -/
theorem c4_counterexample :
    assembledBundle nulFileFs (outputNames 50 ["f"]) = some [97]
    ∧ specBundleConcat nulFileFs (outputNames 50 ["f"]) = [97, 0, 98, 10] := by decide

/-- Claim C4 (amended): for every directory and cutoff, when every
readable file's contents are NUL-free, the assembled bundle equals the
byte-for-byte concatenation, in the partition order in which the three
loops run, of each readable file's contents each followed by exactly
one newline; unreadable files (open, stat, content-malloc or read
failure) contribute nothing and do not corrupt subsequent entries'
bytes; the emitted stream is that concatenation plus the final
printf's own newline. -/
theorem c4_bundle_concat (fs : String → ReadOutcome) (d : List String) (cutoff : Nat)
    (h : ∀ nm bs, fs nm = ReadOutcome.ok bs → (0 : Nat) ∉ bs) :
    assembledBundle fs (outputNames cutoff d)
      = some (specBundleConcat fs (outputNames cutoff d))
    ∧ emittedBundle fs (outputNames cutoff d)
      = some (specBundleConcat fs (outputNames cutoff d) ++ [10]) := by
  obtain ⟨cap2, hrun⟩ := bundleRun_ok fs h (outputNames cutoff d) [] INITIAL_BUFFER_SIZE
  have hrun2 : bundleRun fs (fun _ => true) (outputNames cutoff d) ⟨[0], 0, INITIAL_BUFFER_SIZE⟩
      = .ok ⟨specBundleConcat fs (outputNames cutoff d) ++ [0],
             (specBundleConcat fs (outputNames cutoff d)).length, cap2⟩ := by
    have := hrun
    simpa using this
  have hassembled : assembledBundle fs (outputNames cutoff d)
      = some (specBundleConcat fs (outputNames cutoff d)) := by
    unfold assembledBundle
    rw [hrun2]
    simp only []
    rw [takeWhile_append_zero _ (specBundleConcat_ne_zero fs h (outputNames cutoff d))]
  refine ⟨hassembled, ?_⟩
  unfold emittedBundle
  rw [hassembled]
  rfl

/-- Claim C4 witness: a directory with one readable NUL-free file. -/
theorem c4_bundle_concat_witness :
    assembledBundle smallFileFs (outputNames 50 ["f2"])
      = some (specBundleConcat smallFileFs (outputNames 50 ["f2"])) :=
  (c4_bundle_concat smallFileFs ["f2"] 50 (by
    intro nm bs hb
    obtain rfl : [104, 105] = bs := by simpa [smallFileFs] using hb
    decide)).1

/-- leadMatch succeeds on any extension of the pattern itself. -/
theorem leadMatch_self_append (pat t : List Char) : leadMatch pat (pat ++ t) = true := by
  induction pat with
  | nil => rfl
  | cons p ps ih => simp [leadMatch, ih]

/-- leadMatch is preserved by extending the text on the right. -/
theorem leadMatch_extend (pat : List Char) : ∀ s t : List Char,
    leadMatch pat s = true → leadMatch pat (s ++ t) = true := by
  induction pat with
  | nil => intro s t _; rfl
  | cons p ps ih =>
      intro s t h
      cases s with
      | nil => simp [leadMatch] at h
      | cons c cs =>
          simp only [leadMatch, Bool.and_eq_true] at h
          simp [leadMatch, h.1, ih cs t h.2]

/-- containsSeq is preserved by extending the text on the right. -/
theorem containsSeq_extend (pat : List Char) : ∀ s t : List Char,
    containsSeq pat s = true → containsSeq pat (s ++ t) = true := by
  intro s
  induction s with
  | nil =>
      intro t h
      have hpat : pat = [] := by
        cases pat with
        | nil => rfl
        | cons p ps => simp [containsSeq, List.isEmpty] at h
      subst hpat
      cases t with
      | nil => rfl
      | cons c cs =>
          simp only [containsSeq, List.nil_append, Bool.or_eq_true]
          exact Or.inl rfl
  | cons c cs ih =>
      intro t h
      simp only [containsSeq, Bool.or_eq_true] at h
      rcases h with h | h
      · simp only [List.cons_append, containsSeq, Bool.or_eq_true]
        exact Or.inl (by simpa using leadMatch_extend pat (c :: cs) t h)
      · simp only [List.cons_append, containsSeq, Bool.or_eq_true]
        exact Or.inr (ih t h)

/-- The pattern occurs in any text of the form x ++ pat. -/
theorem containsSeq_append_self (x pat : List Char) : containsSeq pat (x ++ pat) = true := by
  induction x with
  | nil =>
      cases pat with
      | nil => rfl
      | cons p ps =>
          simp only [List.nil_append, containsSeq]
          have := leadMatch_self_append (p :: ps) []
          rw [List.append_nil] at this
          simp [this]
  | cons c x2 ih => simp [containsSeq, ih]

/-- Claim C8 counterexample: the initial bundle-buffer malloc failure
message does not mention its attempted size (INITIAL_BUFFER_SIZE =
4096 bytes), and the per-file content malloc failure message mentions
the path but not the attempted size (here 101 bytes for a 100-byte
file) — so not every allocation failure is reported with the attempted
size. -/
theorem c8_counterexample :
    specMentionsSize initialAllocFailMsg INITIAL_BUFFER_SIZE = false
    ∧ specMentionsSize (fileAllocFailMsg "d/f") 101 = false := by decide

/-- Claim C8 (amended): the reallocation-failure and list-buffer
failure diagnostics do carry the attempted size (the initial-buffer
and per-file content failures carry none); a growth-allocation failure
aborts the whole bundle run with failure status, a failure of the
initial buffer allocation aborts before any file is processed, and a
failure to obtain a single file's content buffer only skips that file:
the loop continues on the remaining entries with the assembly state
untouched. -/
theorem c8_alloc_failures :
    (∀ n : Nat, containsSeq (Nat.repr n).toList (reallocFailMsg n).toList = true)
    ∧ (∀ n : Nat, containsSeq (Nat.repr n).toList (callocFailMsg n).toList = true)
    ∧ (∀ (fs : String → ReadOutcome) (alloc : Nat → Bool) (name : String)
        (rest : List String) (st : BundleState), fs name = ReadOutcome.allocFail →
        bundleRun fs alloc (name :: rest) st = bundleRun fs alloc rest st)
    ∧ (∀ (fs : String → ReadOutcome) (alloc : Nat → Bool) (name : String)
        (rest : List String) (st : BundleState) (bs : List Nat),
        fs name = ReadOutcome.ok bs → st.cap < st.cs + bs.length + 2 →
        alloc (growLoop (st.cs + bs.length + 2) st.cap (st.cs + bs.length + 2)) = false →
        bundleRun fs alloc (name :: rest) st = .error ())
    ∧ (∀ (fs : String → ReadOutcome) (alloc : Nat → Bool) (names : List String),
        bundleMain false fs alloc names = .error ()) := by
  refine ⟨?_, ?_, ?_, ?_, fun _ _ _ => rfl⟩
  · intro n
    have hd : (reallocFailMsg n).toList
        = "Failed to reallocate buffer to size ".toList ++ (Nat.repr n).toList :=
      String.data_append _ _
    rw [hd]
    exact containsSeq_append_self _ _
  · intro n
    have hd : (callocFailMsg n).toList
        = ("Cannot allocate buffer of ".toList ++ (Nat.repr n).toList)
            ++ " byte(s)".toList := by
      show (("Cannot allocate buffer of " ++ Nat.repr n) ++ " byte(s)").data = _
      rw [String.data_append, String.data_append]
      rfl
    rw [hd]
    exact containsSeq_extend _ _ _ (containsSeq_append_self _ _)
  · intro fs alloc name rest st h
    have hr : read_file_contents fs name = none := by
      simp [read_file_contents, h]
    simp only [bundleRun, hr]
  · intro fs alloc name rest st bs h1 h2 h3
    have hr : read_file_contents fs name = some bs := by
      simp [read_file_contents, h1]
    simp only [bundleRun, hr]
    rw [if_pos h2, if_neg (by simp [h3])]

/-- Claim C8 witness: a per-file content-malloc failure skips the file
and continues; a failed growth reallocation for a 5000-byte file aborts
the run with an error. -/
theorem c8_alloc_failures_witness :
    bundleRun allocFailFs alwaysAlloc ["g"] ⟨[0], 0, INITIAL_BUFFER_SIZE⟩
      = bundleRun allocFailFs alwaysAlloc [] ⟨[0], 0, INITIAL_BUFFER_SIZE⟩
    ∧ bundleRun bigFileFs neverAlloc ["g"] ⟨[0], 0, INITIAL_BUFFER_SIZE⟩ = .error () :=
  ⟨c8_alloc_failures.2.2.1 allocFailFs alwaysAlloc "g" [] ⟨[0], 0, INITIAL_BUFFER_SIZE⟩ rfl,
   c8_alloc_failures.2.2.2.1 bigFileFs neverAlloc "g" [] ⟨[0], 0, INITIAL_BUFFER_SIZE⟩
     (List.replicate 5000 97) rfl
     (by simp only [List.length_replicate, INITIAL_BUFFER_SIZE]; omega) rfl⟩
